import Mathlib

/- Verification development for the image-bulk-space-saver repository.

   Shallow embedding of the two source files:
   - src/DynamicCompressImage.js  (class DynamicCompressImage)
   - the ImageCollector source    (class ImageCollector, src/unnamed/part_000)

   The sharp codec library is external to the repository, so buffers are
   modelled as the free algebra of the codec operations the code invokes
   (inductive Buf below), and a Codec structure supplies the two facts the
   control flow observes about the external library: the byte size of a
   produced buffer, and whether producing or writing a buffer succeeds.
   Filesystem writes and console log lines are recorded as an effect trace. -/

/- JavaScript string primitives, modelled on lists of characters.
   These back the translation of shouldCompress, which manipulates the
   formatted size string with includes, replace, trim and parseFloat. -/

/-- Bool test that the second list is an initial segment of the first. -/
def leadsWith : List Char → List Char → Bool
  | _, [] => true
  | [], _ :: _ => false
  | c :: cs, p :: ps => c == p && leadsWith cs ps

/-- Models JavaScript String.prototype.includes: does pat occur in the list. -/
def strContains (pat : List Char) : List Char → Bool
  | [] => pat.isEmpty
  | c :: rest => leadsWith (c :: rest) pat || strContains pat rest

/-- Models JavaScript String.prototype.replace with a string pattern and an
empty replacement: the first occurrence of pat is removed. -/
def replaceFirst (pat : List Char) : List Char → List Char
  | [] => []
  | c :: rest =>
    if leadsWith (c :: rest) pat then (c :: rest).drop pat.length
    else c :: replaceFirst pat rest

/-- Models String.prototype.trim on the space-only inputs that occur here. -/
def trimChars (s : List Char) : List Char :=
  ((s.dropWhile (fun c => c == ' ')).reverse.dropWhile (fun c => c == ' ')).reverse

/-- Numeric value of a list of decimal digit characters. -/
def digitsVal (cs : List Char) : Nat :=
  cs.foldl (fun a c => a * 10 + (c.toNat - 48)) 0

/-- Splits a character list at the first dot: integer part, and the fraction
part when a dot is present. -/
def splitAtDot : List Char → List Char × Option (List Char)
  | [] => ([], none)
  | c :: rest =>
    if c == '.' then ([], some rest)
    else
      let r := splitAtDot rest
      (c :: r.1, r.2)

/-- Models the comparison parseFloat(s) > 250 from shouldCompress, exactly,
by comparing the parsed decimal as a rational against 250.  Faithful on the
canonical digit strings produced by formatSize; parseFloat of a non-numeric
string is NaN and NaN > 250 is false, matching the 0 > 250 = false this
definition yields on the empty list. -/
def parseFloatGT250 (s : List Char) : Bool :=
  match splitAtDot s with
  | (i, none) => digitsVal i > 250
  | (i, some f) => digitsVal i * 10 ^ f.length + digitsVal f > 250 * 10 ^ f.length

/-- Two-digit zero padding used when printing the fraction part. -/
def padTwo (n : Nat) : String :=
  if n < 10 then "0" ++ toString n else toString n

/-- Models the JavaScript expression (size / den).toFixed(2) for the divisors
used in formatSize.  Every divisor is a power of two, so for size below 2^53
the double quotient size / den is exact, and toFixed picks the integer n
closest to 100 * size / den, the larger one on a tie; that integer is
(size * 200 + den) / (2 * den) in Nat arithmetic. -/
def toFixed2 (size den : Nat) : String :=
  let n := (size * 200 + den) / (2 * den)
  toString (n / 100) ++ "." ++ padTwo (n % 100)

/-- Models String.prototype.toLowerCase on ASCII data: uppercase letters are
shifted into the lowercase range, all other characters are unchanged. -/
def lowerChar (c : Char) : Char :=
  if 65 ≤ c.toNat ∧ c.toNat ≤ 90 then Char.ofNat (c.toNat + 32) else c

/-- Lowercases a whole string character by character. -/
def lowerStr (s : String) : String :=
  String.mk (s.data.map lowerChar)

/-- Pattern "KB" as characters, for the includes test in shouldCompress. -/
def kbChars : List Char := ['K', 'B']

/-- Pattern " KB" as characters, for the replace call in shouldCompress. -/
def kbUnitChars : List Char := [' ', 'K', 'B']

namespace DynamicCompressImage

/-- Translation of DynamicCompressImage.formatSize
(src/DynamicCompressImage.js lines 107-117). -/
def formatSize (size : Nat) : String :=
  if size < 1024 then toString size ++ " Bytes"
  else if size < 1024 * 1024 then toFixed2 size 1024 ++ " KB"
  else if size < 1024 * 1024 * 1024 then toFixed2 size (1024 * 1024) ++ " MB"
  else toFixed2 size (1024 * 1024 * 1024) ++ " GB"

/-- Translation of DynamicCompressImage.shouldCompress
(src/DynamicCompressImage.js lines 73-80).  The source receives only the
formatted size string: if the string includes "KB" it parses the number and
compares it against the constant 250, and otherwise it returns true with the
comment: assume MB or GB. -/
def shouldCompress (sizeStr : String) : Bool :=
  if strContains kbChars sizeStr.data then
    parseFloatGT250 (trimChars (replaceFirst kbUnitChars sizeStr.data))
  else true

end DynamicCompressImage

namespace ImageCollector

/-- Translation of ImageCollector.formatSize (ImageCollector source lines
30-40); the source duplicates the function of DynamicCompressImage verbatim. -/
def formatSize (size : Nat) : String :=
  if size < 1024 then toString size ++ " Bytes"
  else if size < 1024 * 1024 then toFixed2 size 1024 ++ " KB"
  else if size < 1024 * 1024 * 1024 then toFixed2 size (1024 * 1024) ++ " MB"
  else toFixed2 size (1024 * 1024 * 1024) ++ " GB"

end ImageCollector

/- Codec algebra.  The sharp library is external, so a buffer is represented
by the sequence of codec operations that produced it; no identities between
distinct operation sequences are assumed. -/

/-- Free algebra of the sharp buffer operations the source invokes.
file p is the encoded bytes on disk at path p; plain b is sharp(b).toBuffer()
with no transformation, which decodes and re-encodes at default settings (it
is also the transcode performed by sharp(b).toFile); resized w ne b is
sharp(b).resize with the given width and the withoutEnlargement flag;
jpeg q b and png l b are the jpeg quality and png compressionLevel
re-encodes. -/
inductive Buf where
  | file (p : String)
  | plain (b : Buf)
  | resized (w : Nat) (noEnlarge : Bool) (b : Buf)
  | jpeg (q : Nat) (b : Buf)
  | png (level : Nat) (b : Buf)
deriving DecidableEq

/-- Oracle for the external codec: the byte size of each produced buffer,
whether producing a buffer succeeds (a sharp toBuffer call can reject), and
whether writing a buffer to a path succeeds. -/
structure Codec where
  sz : Buf → Nat
  ok : Buf → Bool
  writeOk : String → Buf → Bool

/-- Observable effects of one run: completed file writes and console lines.
The writeTmp and rename constructors are vocabulary for the atomic-commit
property of the specification; the translated source never emits them. -/
inductive Effect where
  | write (p : String) (b : Buf)
  | writeTmp (p : String) (b : Buf)
  | rename (src dst : String)
  | logCompressed (p : String)
  | logSkipped (p : String)
  | logError (p : String)
deriving DecidableEq

/-- Wraps a codec operation as the source awaits it: the buffer when the
operation succeeds, none when sharp rejects. -/
def mkBuf (c : Codec) (b : Buf) : Option Buf :=
  if c.ok b then some b else none

/-- Bool scan of a trace for any temporary-file write or rename step. -/
def usesTempRename : List Effect → Bool
  | [] => false
  | Effect.writeTmp _ _ :: _ => true
  | Effect.rename _ _ :: _ => true
  | _ :: rest => usesTempRename rest

/-- Image record as built by ImageCollector.getImagesFromDirectory lines
61-69: name, path, formatted size string, byte size, raw extension, and the
probed dimensions.  The JSON the compressor later reads omits sizeInBytes
(collectAndSaveImages strips it before saving). -/
structure ImageRecord where
  name : String
  path : String
  size : String
  sizeInBytes : Nat
  extension : String
  width : Nat
  height : Nat

namespace DynamicCompressImage

/-- Buffer produced by lines 24-31 of compressImage: sharp resize to width
1400 with withoutEnlargement when the record width exceeds 1500, otherwise a
plain sharp(imagePath).toBuffer() decode-and-re-encode of the file. -/
def initialBuffer (img : ImageRecord) : Buf :=
  if img.width > 1500 then Buf.resized 1400 true (Buf.file img.path)
  else Buf.plain (Buf.file img.path)

/-- First re-encode stage, lines 35-43: jpeg quality 80 or png compression
level 9, selected by exact comparison of the extension string; any other
extension leaves the buffer unchanged with no codec call. -/
def applyFirstEncode (c : Codec) (ext : String) (b : Buf) : Option Buf :=
  if ext == ".jpg" || ext == ".jpeg" then mkBuf c (Buf.jpeg 80 b)
  else if ext == ".png" then mkBuf c (Buf.png 9 b)
  else some b

/-- Second re-encode stage, lines 47-55: jpeg quality 60, or png compression
level 9 a second time; again an exact extension comparison. -/
def applySecondEncode (c : Codec) (ext : String) (b : Buf) : Option Buf :=
  if ext == ".jpg" || ext == ".jpeg" then mkBuf c (Buf.jpeg 60 b)
  else if ext == ".png" then mkBuf c (Buf.png 9 b)
  else some b

/-- Value of the data variable at line 59 of compressImage, just before the
toFile call: the initial buffer, put through the two conditional re-encode
stages gated on the current length exceeding maxSize; none when a codec
operation failed (the thrown error). -/
def compressImageData (c : Codec) (maxSize : Nat) (img : ImageRecord) : Option Buf :=
  match mkBuf c (initialBuffer img) with
  | none => none
  | some b0 =>
    if c.sz b0 > maxSize then
      match applyFirstEncode c img.extension b0 with
      | none => none
      | some b1 =>
        if c.sz b1 > maxSize then applySecondEncode c img.extension b1
        else some b1
    else some b0

/-- Translation of compressImage (lines 18-66).  On the success path line 59
runs sharp(data).toFile(imagePath), a transcode streamed directly into the
original path, and line 61 returns the committed file size; on any failure
the catch block logs the error for that path and rethrows, modelled as the
none result. -/
def compressImage (c : Codec) (maxSize : Nat) (img : ImageRecord) :
    List Effect × Option Nat :=
  match compressImageData c maxSize img with
  | none => ([Effect.logError img.path], none)
  | some data =>
    if c.ok (Buf.plain data) && c.writeOk img.path (Buf.plain data) then
      ([Effect.write img.path (Buf.plain data)], some (c.sz (Buf.plain data)))
    else ([Effect.logError img.path], none)

/-- Effects contributed by one loop iteration of compressImagesFromJson
(lines 88-99): records selected by shouldCompress run compressImage inside a
try block whose catch logs and continues; skipped records log a skip line. -/
def recordStep (c : Codec) (maxSize : Nat) (img : ImageRecord) : List Effect :=
  if shouldCompress img.size then
    match compressImage c maxSize img with
    | (tr, some _) => tr ++ [Effect.logCompressed img.path]
    | (tr, none) => tr ++ [Effect.logError img.path]
  else [Effect.logSkipped img.path]

/-- Translation of the loop of compressImagesFromJson (lines 86-100) over the
already-parsed record list; reading the JSON file is outside the model. -/
def compressImagesFromJson (c : Codec) (maxSize : Nat) :
    List ImageRecord → List Effect
  | [] => []
  | img :: rest => recordStep c maxSize img ++ compressImagesFromJson c maxSize rest

end DynamicCompressImage

namespace ImageCollector

/-- Extension allowlist from the ImageCollector constructor (line 12). -/
def imageExtensions : List String := [".jpg", ".jpeg", ".png"]

/-- Models path.extname for plain file names: the suffix from the last dot
inclusive, empty when there is no dot or when the only dot leads the name. -/
def extname (file : String) : String :=
  let rev := file.data.reverse
  let after := rev.takeWhile (fun c => c != '.')
  if after.length == rev.length then ""
  else if after.length + 1 == rev.length then ""
  else String.mk ('.' :: after.reverse)

/-- Translation of ImageCollector.isImage (lines 20-23): the extension is
lowercased before membership in the allowlist is tested. -/
def isImage (file : String) : Bool :=
  imageExtensions.contains (lowerStr (extname file))

/-- Models path.basename(file, path.extname(file)): the name less the
extension suffix. -/
def stripExt (file : String) : String :=
  String.mk (file.data.take (file.data.length - (extname file).data.length))

/-- Record pushed by getImagesFromDirectory lines 61-69 for an image file:
note the extension field stores path.extname(file) without lowercasing, while
isImage matched it lowercased. -/
def catalogRecord (file filePath : String) (sizeB w h : Nat) : ImageRecord :=
  ImageRecord.mk (stripExt file) filePath (formatSize sizeB) sizeB
    (extname file) w h

end ImageCollector

/- Concrete codecs and records used by the counterexamples and witnesses. -/

/-- Codec whose every buffer measures 500 bytes and always succeeds. -/
def smallCodec : Codec := Codec.mk (fun _ => 500) (fun _ => true) (fun _ _ => true)

/-- Codec whose every buffer measures 300000 bytes and always succeeds. -/
def bigCodec : Codec := Codec.mk (fun _ => 300000) (fun _ => true) (fun _ _ => true)

/-- Codec whose every operation fails. -/
def failingCodec : Codec := Codec.mk (fun _ => 300000) (fun _ => false) (fun _ _ => false)

/-- A 900-byte jpg record, far below the 256000-byte default budget. -/
def bytesRecord : ImageRecord :=
  ImageRecord.mk "b" "b.jpg" (ImageCollector.formatSize 900) 900 ".jpg" 300 200

/-- A 500-byte png record, far below the default budget. -/
def tinyRecord : ImageRecord :=
  ImageRecord.mk "tiny" "tiny.png" (ImageCollector.formatSize 500) 500 ".png" 300 200

/-- A 300000-byte png record of width 800, over the default budget. -/
def pngRecord : ImageRecord :=
  ImageRecord.mk "art" "art.png" (ImageCollector.formatSize 300000) 300000 ".png" 800 600

/-- The 2097152-byte jpeg record of width 2000 from the specification
scenario. -/
def jpegRecord : ImageRecord :=
  ImageRecord.mk "photo" "photo.jpg" (ImageCollector.formatSize 2097152) 2097152 ".jpg" 2000 1200

/-- A 200000-byte jpg record of width 800, below the resize trigger. -/
def narrowRecord : ImageRecord :=
  ImageRecord.mk "n" "n.jpg" (ImageCollector.formatSize 200000) 200000 ".jpg" 800 600

/-- The catalog record the collector builds for a file named photo.PNG. -/
def upperRecord : ImageRecord :=
  ImageCollector.catalogRecord "photo.PNG" "photo.PNG" 300000 800 600

/-- C1: fails on the code.  The source shouldCompress receives only the
formatted display string and tests for a KB substring, so the 900-byte record
bytesRecord, although far below the 256000-byte budget, is selected for
compression, and the run opens and writes its file. -/
theorem sub_kilobyte_record_selected_and_written :
    bytesRecord.sizeInBytes = 900 ∧ bytesRecord.sizeInBytes ≤ 256000 ∧
    bytesRecord.size = ImageCollector.formatSize bytesRecord.sizeInBytes ∧
    DynamicCompressImage.shouldCompress bytesRecord.size = true ∧
    Effect.write "b.jpg" (Buf.plain (Buf.plain (Buf.file "b.jpg")))
      ∈ DynamicCompressImage.compressImagesFromJson smallCodec 256000 [bytesRecord] := by
  decide

/-- C2: fails on the code.  For the specification scenario record (a
2097152-byte jpeg of width 2000) the commit at line 59 streams the final
transcode directly into the original path: the success trace is exactly one
direct write followed by the log line, with no temporary-file write and no
rename anywhere in the run. -/
theorem commit_direct_overwrite_no_rename :
    DynamicCompressImage.compressImagesFromJson bigCodec 256000 [jpegRecord]
      = [Effect.write "photo.jpg"
           (Buf.plain (Buf.jpeg 60 (Buf.jpeg 80
             (Buf.resized 1400 true (Buf.file "photo.jpg"))))),
         Effect.logCompressed "photo.jpg"] ∧
    usesTempRename
        (DynamicCompressImage.compressImagesFromJson bigCodec 256000 [jpegRecord])
      = false := by
  decide

/-- C5: fails on the code.  tinyRecord already satisfies the budget (500 of
256000 bytes), yet a pass over a catalog holding only satisfied records still
selects it, because its display string carries no KB unit, and performs a
file write; a second invocation behaves identically, so the second pass does
not perform zero writes. -/
theorem satisfied_budget_pass_still_writes :
    tinyRecord.sizeInBytes ≤ 256000 ∧
    tinyRecord.size = ImageCollector.formatSize tinyRecord.sizeInBytes ∧
    Effect.write "tiny.png" (Buf.plain (Buf.plain (Buf.file "tiny.png")))
      ∈ DynamicCompressImage.compressImagesFromJson smallCodec 256000 [tinyRecord] := by
  decide

/-- C8: confirmed.  formatSize follows the four byte thresholds, rendering
the integer byte count below 1024 and the two-decimal quotient by 1024,
1024 squared and 1024 cubed above, and takes the four specified values. -/
theorem formatSize_thresholds :
    (∀ n : Nat, n < 1024 →
      DynamicCompressImage.formatSize n = toString n ++ " Bytes") ∧
    (∀ n : Nat, 1024 ≤ n → n < 1024 * 1024 →
      DynamicCompressImage.formatSize n = toFixed2 n 1024 ++ " KB") ∧
    (∀ n : Nat, 1024 * 1024 ≤ n → n < 1024 * 1024 * 1024 →
      DynamicCompressImage.formatSize n = toFixed2 n (1024 * 1024) ++ " MB") ∧
    (∀ n : Nat, 1024 * 1024 * 1024 ≤ n →
      DynamicCompressImage.formatSize n = toFixed2 n (1024 * 1024 * 1024) ++ " GB") ∧
    DynamicCompressImage.formatSize 0 = "0 Bytes" ∧
    DynamicCompressImage.formatSize 1024 = "1.00 KB" ∧
    DynamicCompressImage.formatSize 1048576 = "1.00 MB" ∧
    DynamicCompressImage.formatSize 1073741824 = "1.00 GB" := by
  refine ⟨?_, ?_, ?_, ?_, by decide, by decide, by decide, by decide⟩
  · intro n h
    unfold DynamicCompressImage.formatSize
    rw [if_pos h]
  · intro n h1 h2
    unfold DynamicCompressImage.formatSize
    rw [if_neg (by omega), if_pos h2]
  · intro n h1 h2
    unfold DynamicCompressImage.formatSize
    rw [if_neg (by omega), if_neg (by omega), if_pos h2]
  · intro n h1
    unfold DynamicCompressImage.formatSize
    rw [if_neg (by omega), if_neg (by omega), if_neg (by omega)]

/-- C8 witness: the KB threshold case evaluated at 2048 bytes. -/
theorem formatSize_thresholds_witness :
    DynamicCompressImage.formatSize 2048 = toFixed2 2048 1024 ++ " KB" :=
  formatSize_thresholds.2.1 2048 (by decide) (by decide)

/-- C10: confirmed.  The formatSize implementations of DynamicCompressImage
and ImageCollector agree on every byte count; the two source functions are
textually identical. -/
theorem formatSize_implementations_agree :
    ∀ n : Nat, DynamicCompressImage.formatSize n = ImageCollector.formatSize n :=
  fun _ => rfl

/- Helper lemmas shared by the stage theorems. -/

theorem applyFirstEncode_png (c : Codec) (b : Buf) :
    DynamicCompressImage.applyFirstEncode c ".png" b = mkBuf c (Buf.png 9 b) := rfl

theorem applySecondEncode_png (c : Codec) (b : Buf) :
    DynamicCompressImage.applySecondEncode c ".png" b = mkBuf c (Buf.png 9 b) := rfl

theorem mkBuf_ok (c : Codec) (b : Buf) (h : c.ok b = true) :
    mkBuf c b = some b := by
  unfold mkBuf
  rw [h]
  simp

/-- C3: fails on the code.  For a png record still over budget after the
first level-9 re-encode, lines 51-54 apply a second png re-encode at the same
level, so the final buffer carries two png operations and is not the buffer
produced by the first re-encode retained unchanged. -/
theorem png_second_reencode_applied :
    DynamicCompressImage.compressImageData bigCodec 256000 pngRecord
      = some (Buf.png 9 (Buf.png 9 (Buf.plain (Buf.file "art.png")))) ∧
    Buf.png 9 (Buf.png 9 (Buf.plain (Buf.file "art.png")))
      ≠ Buf.png 9 (Buf.plain (Buf.file "art.png")) := by
  decide

/-- C3 amended: for every png record still over budget after the first
level-9 re-encode, the ladder applies a second png re-encode at the same
compression level 9 (the same lever, no new parameter), and the resulting
buffer, possibly still over budget, is committed and reported as success. -/
theorem png_over_budget_double_reencode (c : Codec) (m : Nat)
    (img : ImageRecord)
    (hext : img.extension = ".png")
    (h0 : c.ok (DynamicCompressImage.initialBuffer img) = true)
    (hs0 : c.sz (DynamicCompressImage.initialBuffer img) > m)
    (h1 : c.ok (Buf.png 9 (DynamicCompressImage.initialBuffer img)) = true)
    (hs1 : c.sz (Buf.png 9 (DynamicCompressImage.initialBuffer img)) > m)
    (h2 : c.ok (Buf.png 9 (Buf.png 9 (DynamicCompressImage.initialBuffer img))) = true)
    (hw : c.ok (Buf.plain (Buf.png 9 (Buf.png 9 (DynamicCompressImage.initialBuffer img)))) = true)
    (hwr : c.writeOk img.path
        (Buf.plain (Buf.png 9 (Buf.png 9 (DynamicCompressImage.initialBuffer img)))) = true) :
    DynamicCompressImage.compressImage c m img
      = ([Effect.write img.path
            (Buf.plain (Buf.png 9 (Buf.png 9 (DynamicCompressImage.initialBuffer img))))],
         some (c.sz (Buf.plain (Buf.png 9 (Buf.png 9 (DynamicCompressImage.initialBuffer img)))))) := by
  have hd : DynamicCompressImage.compressImageData c m img
      = some (Buf.png 9 (Buf.png 9 (DynamicCompressImage.initialBuffer img))) := by
    unfold DynamicCompressImage.compressImageData
    rw [mkBuf_ok c _ h0]
    dsimp only
    rw [if_pos hs0, hext, applyFirstEncode_png, mkBuf_ok c _ h1]
    dsimp only
    rw [if_pos hs1, applySecondEncode_png, mkBuf_ok c _ h2]
  unfold DynamicCompressImage.compressImage
  rw [hd]
  simp only [hw, hwr, Bool.and_self, if_pos]

/-- C3 amended witness: the concrete over-budget png record committed with
the doubled level-9 re-encode. -/
theorem png_over_budget_double_reencode_witness :
    DynamicCompressImage.compressImage bigCodec 256000 pngRecord
      = ([Effect.write "art.png"
            (Buf.plain (Buf.png 9 (Buf.png 9 (DynamicCompressImage.initialBuffer pngRecord))))],
         some (bigCodec.sz (Buf.plain (Buf.png 9 (Buf.png 9 (DynamicCompressImage.initialBuffer pngRecord)))))) :=
  png_over_budget_double_reencode bigCodec 256000 pngRecord rfl rfl
    (by decide) rfl (by decide) rfl rfl rfl

/-- C7: fails on the code as stated.  For a record of width 800 the
non-resize branch at line 30 still routes the file through
sharp(imagePath).toBuffer(), a decode-and-re-encode at default settings, so
the buffer entering the next stage is a codec-processed value and not the
original encoded bytes passed through unchanged. -/
theorem narrow_image_not_passthrough :
    DynamicCompressImage.initialBuffer narrowRecord = Buf.plain (Buf.file "n.jpg") ∧
    Buf.plain (Buf.file "n.jpg") ≠ Buf.file "n.jpg" ∧
    DynamicCompressImage.compressImageData smallCodec 256000 narrowRecord
      = some (Buf.plain (Buf.file "n.jpg")) := by
  decide

/-- C7 amended: for every record with width above 1500 the image is resized
to width 1400 with the never-enlarge flag carried on the adapter call; for
every record with width at most 1500 the image is decoded and re-encoded at
default settings by a plain sharp pipeline, which is what enters the next
stage in place of a byte-identical pass-through. -/
theorem resize_gating (img : ImageRecord) :
    (img.width > 1500 →
      DynamicCompressImage.initialBuffer img
        = Buf.resized 1400 true (Buf.file img.path)) ∧
    (img.width ≤ 1500 →
      DynamicCompressImage.initialBuffer img
        = Buf.plain (Buf.file img.path)) := by
  unfold DynamicCompressImage.initialBuffer
  constructor
  · intro h
    rw [if_pos h]
  · intro h
    rw [if_neg (by omega)]

/-- C7 amended witness: the width-2000 record takes the resize branch with
the never-enlarge flag set. -/
theorem resize_gating_witness :
    DynamicCompressImage.initialBuffer jpegRecord
      = Buf.resized 1400 true (Buf.file jpegRecord.path) :=
  (resize_gating jpegRecord).1 (by decide)

/-- C9: confirmed.  Whenever compressImage succeeds, its trace is exactly one
write of a decode-and-re-encode transcode into the original path of the
record, and the written buffer is never the untouched on-disk bytes; this
holds in particular when the resize trigger does not fire and every size
check passes. -/
theorem success_always_commits_write (c : Codec) (m : Nat)
    (img : ImageRecord) (n : Nat)
    (h : (DynamicCompressImage.compressImage c m img).2 = some n) :
    ∃ d, DynamicCompressImage.compressImage c m img
        = ([Effect.write img.path (Buf.plain d)], some (c.sz (Buf.plain d))) ∧
      Buf.plain d ≠ Buf.file img.path := by
  cases hd : DynamicCompressImage.compressImageData c m img with
  | none => simp [DynamicCompressImage.compressImage, hd] at h
  | some d =>
    by_cases hc : (c.ok (Buf.plain d) && c.writeOk img.path (Buf.plain d)) = true
    · exact ⟨d, by simp [DynamicCompressImage.compressImage, hd, hc], by simp⟩
    · simp [DynamicCompressImage.compressImage, hd, hc] at h

/-- C9 witness: the 900-byte jpg record, no resize and every size check
passing, still ends in a committed write of a re-encoded buffer. -/
theorem success_always_commits_write_witness :
    ∃ d, DynamicCompressImage.compressImage smallCodec 256000 bytesRecord
        = ([Effect.write bytesRecord.path (Buf.plain d)],
           some (smallCodec.sz (Buf.plain d))) ∧
      Buf.plain d ≠ Buf.file bytesRecord.path :=
  success_always_commits_write smallCodec 256000 bytesRecord 500 (by decide)

/-- C4: fails on the code as stated.  The collector classifies photo.PNG as
an image (isImage lowercases before matching) but stores the raw extension
.PNG in the record; compressImage compares that string case-sensitively, so
the over-budget record gets no format-specific re-encode stage at all, while
the lowercase spelling of the same file gets the png level-9 stages. -/
theorem uppercase_png_skips_ladder :
    ImageCollector.isImage "photo.PNG" = true ∧
    upperRecord.extension = ".PNG" ∧
    DynamicCompressImage.compressImageData bigCodec 256000 upperRecord
      = some (Buf.plain (Buf.file "photo.PNG")) ∧
    DynamicCompressImage.compressImageData bigCodec 256000
        (ImageCollector.catalogRecord "photo.png" "photo.png" 300000 800 600)
      = some (Buf.png 9 (Buf.png 9 (Buf.plain (Buf.file "photo.png")))) := by
  decide

/-- C4 amended: catalog classification is case-insensitive, but the ladder is
not: the re-encode stages fire only when the stored extension is exactly
.jpg, .jpeg or .png in lowercase, and for every other spelling an over-budget
record passes both stages with its buffer unchanged and no codec call. -/
theorem case_sensitive_stage_gating (c : Codec) (m : Nat)
    (img : ImageRecord) (file : String)
    (h1 : img.extension ≠ ".jpg") (h2 : img.extension ≠ ".jpeg")
    (h3 : img.extension ≠ ".png")
    (hok : c.ok (DynamicCompressImage.initialBuffer img) = true)
    (hsz : c.sz (DynamicCompressImage.initialBuffer img) > m) :
    DynamicCompressImage.compressImageData c m img
      = some (DynamicCompressImage.initialBuffer img) ∧
    (ImageCollector.isImage file = true ↔
      lowerStr (ImageCollector.extname file) ∈ ImageCollector.imageExtensions) := by
  constructor
  · have e1 : DynamicCompressImage.applyFirstEncode c img.extension
        (DynamicCompressImage.initialBuffer img)
        = some (DynamicCompressImage.initialBuffer img) := by
      unfold DynamicCompressImage.applyFirstEncode
      simp [h1, h2, h3]
    have e2 : DynamicCompressImage.applySecondEncode c img.extension
        (DynamicCompressImage.initialBuffer img)
        = some (DynamicCompressImage.initialBuffer img) := by
      unfold DynamicCompressImage.applySecondEncode
      simp [h1, h2, h3]
    unfold DynamicCompressImage.compressImageData
    rw [mkBuf_ok c _ hok]
    dsimp only
    rw [if_pos hsz, e1]
    dsimp only
    rw [if_pos hsz, e2]
  · exact ⟨fun h => List.mem_of_elem_eq_true h, fun h => List.elem_eq_true_of_mem h⟩

/-- C4 amended witness: the .PNG record is classified as an image yet passes
the ladder with no stage applied. -/
theorem case_sensitive_stage_gating_witness :
    DynamicCompressImage.compressImageData bigCodec 256000 upperRecord
      = some (DynamicCompressImage.initialBuffer upperRecord) ∧
    (ImageCollector.isImage "x.PnG" = true ↔
      lowerStr (ImageCollector.extname "x.PnG") ∈ ImageCollector.imageExtensions) :=
  case_sensitive_stage_gating bigCodec 256000 upperRecord "x.PnG"
    (by decide) (by decide) (by decide) rfl (by decide)

/- Helper lemmas for the failure-isolation theorem. -/

theorem compressImagesFromJson_append (c : Codec) (m : Nat)
    (l1 l2 : List ImageRecord) :
    DynamicCompressImage.compressImagesFromJson c m (l1 ++ l2)
      = DynamicCompressImage.compressImagesFromJson c m l1
        ++ DynamicCompressImage.compressImagesFromJson c m l2 := by
  induction l1 with
  | nil => simp [DynamicCompressImage.compressImagesFromJson]
  | cons a l ih => simp [DynamicCompressImage.compressImagesFromJson, ih]

theorem compressImage_fail_trace (c : Codec) (m : Nat) (img : ImageRecord)
    (h : (DynamicCompressImage.compressImage c m img).2 = none) :
    DynamicCompressImage.compressImage c m img
      = ([Effect.logError img.path], none) := by
  cases hd : DynamicCompressImage.compressImageData c m img with
  | none => simp [DynamicCompressImage.compressImage, hd]
  | some d =>
    by_cases hc : (c.ok (Buf.plain d) && c.writeOk img.path (Buf.plain d)) = true
    · simp [DynamicCompressImage.compressImage, hd, hc] at h
    · simp [DynamicCompressImage.compressImage, hd, hc]

/-- C6: confirmed.  A selected record whose pipeline fails at any step
contributes exactly its two error log lines: the run over any surrounding
catalog decomposes into the records before it, that contribution, and the
untouched processing of all records after it, the failure is logged, and the
failing record performs no file write. -/
theorem per_record_failure_isolation (c : Codec) (m : Nat)
    (pre post : List ImageRecord) (img : ImageRecord)
    (hsel : DynamicCompressImage.shouldCompress img.size = true)
    (hfail : (DynamicCompressImage.compressImage c m img).2 = none) :
    DynamicCompressImage.compressImagesFromJson c m (pre ++ img :: post)
      = DynamicCompressImage.compressImagesFromJson c m pre
        ++ [Effect.logError img.path, Effect.logError img.path]
        ++ DynamicCompressImage.compressImagesFromJson c m post ∧
    Effect.logError img.path ∈ DynamicCompressImage.recordStep c m img ∧
    ∀ p b, Effect.write p b ∉ DynamicCompressImage.recordStep c m img := by
  have hstep : DynamicCompressImage.recordStep c m img
      = [Effect.logError img.path, Effect.logError img.path] := by
    unfold DynamicCompressImage.recordStep
    rw [compressImage_fail_trace c m img hfail]
    simp [hsel]
  refine ⟨?_, by rw [hstep]; simp, ?_⟩
  · rw [compressImagesFromJson_append]
    simp [DynamicCompressImage.compressImagesFromJson, hstep]
  · intro p b h
    rw [hstep] at h
    simp at h

/-- C6 witness: a failing codec aborts only the selected png record, logging
it and writing nothing, while the rest of the catalog is still processed. -/
theorem per_record_failure_isolation_witness :
    DynamicCompressImage.compressImagesFromJson failingCodec 256000
        ([] ++ pngRecord :: [tinyRecord])
      = DynamicCompressImage.compressImagesFromJson failingCodec 256000 []
        ++ [Effect.logError pngRecord.path, Effect.logError pngRecord.path]
        ++ DynamicCompressImage.compressImagesFromJson failingCodec 256000 [tinyRecord] ∧
    Effect.logError pngRecord.path
      ∈ DynamicCompressImage.recordStep failingCodec 256000 pngRecord ∧
    ∀ p b, Effect.write p b
      ∉ DynamicCompressImage.recordStep failingCodec 256000 pngRecord :=
  per_record_failure_isolation failingCodec 256000 [] [tinyRecord] pngRecord
    (by decide) (by decide)

